import Mathlib

/-!
Shallow embedding of the in-graph beam search decoder of
`neuralmonkey/decoders/beam_search_decoder.py` (together with the pieces of
`neuralmonkey/model/model_part.py` it relies on), and proofs of the
specification's properties about it.

Modelling choices:

* Tensor values are exact rationals (`ℚ`); per-hypothesis tensors of the
  beam (shape `beam`) are Lean lists of length `beam_size`, indexed with
  `List.getD`.
* The step scorer (the parent decoder's body followed by
  `tf.nn.log_softmax`, line 188) is an opaque external collaborator, so the
  loop is parameterised by the per-step log-probability matrix
  `lp : ℕ → ℕ → ℚ` (row, token ↦ log-probability).  The opaque recurrent
  and attention tensors (`last_state`, `last_attns`) live entirely inside
  that collaborator and carry no information used by the search algorithm,
  so they are not part of the embedded state.
* `tf.float32.min`, the off-value of the masking one-hot row (line 198), is
  the exact rational value of the smallest finite IEEE-754 binary32 number.
* `tf.nn.top_k` (line 220) is an external primitive; its documented
  contract is: values in descending order, and among equal values the
  lower index comes first.  It is embedded as a stable sort of all flat
  indices by the lexicographic order (score descending, index ascending),
  followed by `take k`.
* The length penalty (line 334) raises to a real power, so the real-valued
  formula is embedded separately with `Real.rpow`; the decoding step is
  parameterised by the penalty function `penalty : ℤ → ℚ` it divides by.
* Python `assert` failures and exceptions are modelled with `Option` /
  `Except`.
-/

namespace NeuralMonkey

/-- Smallest finite value of IEEE-754 binary32 (`tf.float32.min`), as an
exact rational: `-(2^128 - 2^104) = -3.4028234663852886e38`.  Used as the
off-value of the one-hot row that masks finished hypotheses
(`beam_search_decoder.py`, lines 193-198). -/
def floatMin : ℚ := -(2 ^ 128 - 2 ^ 104)

/-- The `SearchState` named tuple (lines 41-47): per-hypothesis sum of token
log-probabilities, length, finished flag and last emitted token id, each a
length-`beam_size` parallel array.  The opaque tensors `last_state` and
`last_attns` belong to the external parent decoder and are omitted. -/
structure SearchState where
  logprob_sum : List ℚ
  lengths : List ℤ
  finished : List Bool
  last_word_ids : List ℕ
deriving DecidableEq

/-- The `SearchStepOutput` named tuple (lines 49-52): one decoding step's
top-`beam_size` normalized scores, parent hypothesis indices and chosen
token ids. -/
structure SearchStepOutput where
  scores : List ℚ
  parent_ids : List ℕ
  token_ids : List ℕ
deriving DecidableEq

/-- Result of `_decoding_loop` (lines 147-153): the three per-step output
tensor arrays stacked into `steps × beam_size` matrices. -/
structure StackedOutput where
  scores : List (List ℚ)
  parent_ids : List (List ℕ)
  token_ids : List (List ℕ)
deriving DecidableEq

/-- Comparator of the top-k selection, on flat candidate indices: `i` ranks
no later than `j` when its score is strictly larger, or, on exactly equal
scores, when `i ≤ j`.  This is the documented contract of `tf.nn.top_k`
(line 220): values sorted in descending order, the lower index first among
equal values. -/
def topkLe (scores : ℕ → ℚ) (i j : ℕ) : Bool :=
  if scores i = scores j then decide (i ≤ j) else decide (scores j ≤ scores i)

/-- Propositional form of `topkLe`. -/
def TopkRel (scores : ℕ → ℚ) (i j : ℕ) : Prop :=
  topkLe scores i j = true

instance (scores : ℕ → ℚ) : DecidableRel (TopkRel scores) :=
  fun i j => inferInstanceAs (Decidable (_ = true))

theorem topkLe_score {scores : ℕ → ℚ} {i j : ℕ} (h : topkLe scores i j = true) :
    scores j ≤ scores i := by
  unfold topkLe at h
  split at h
  · exact le_of_eq (by assumption : scores i = scores j).symm
  · exact of_decide_eq_true h

theorem topkLe_tie {scores : ℕ → ℚ} {i j : ℕ} (h : topkLe scores i j = true)
    (he : scores i = scores j) : i ≤ j := by
  unfold topkLe at h
  rw [if_pos he] at h
  exact of_decide_eq_true h

instance (scores : ℕ → ℚ) : IsTotal ℕ (TopkRel scores) := by
  constructor
  intro i j
  unfold TopkRel topkLe
  by_cases he : scores i = scores j
  · rw [if_pos he, if_pos he.symm]
    rcases Nat.le_total i j with h | h
    · exact Or.inl (decide_eq_true h)
    · exact Or.inr (decide_eq_true h)
  · rw [if_neg he, if_neg (fun h => he h.symm)]
    rcases le_total (scores i) (scores j) with h | h
    · exact Or.inr (decide_eq_true h)
    · exact Or.inl (decide_eq_true h)

instance (scores : ℕ → ℚ) : IsTrans ℕ (TopkRel scores) := by
  constructor
  intro a b c hab hbc
  unfold TopkRel topkLe at *
  by_cases hac : scores a = scores c
  · rw [if_pos hac]
    have hba : scores b ≤ scores a := topkLe_score hab
    have hcb : scores c ≤ scores b := topkLe_score hbc
    have hbceq : scores b = scores c := le_antisymm (hac ▸ hba) hcb
    have habeq : scores a = scores b := hbceq ▸ hac
    have h1 : a ≤ b := topkLe_tie hab habeq
    have h2 : b ≤ c := topkLe_tie hbc hbceq
    exact decide_eq_true (le_trans h1 h2)
  · rw [if_neg hac]
    exact decide_eq_true (le_trans (topkLe_score hbc) (topkLe_score hab))

/-- Model of `tf.nn.top_k` applied to a flattened score vector of length
`n` (lines 220-221): the `k` best flat indices, values descending, ties
broken toward the smaller index.  A stable sort of all indices by the
total order `TopkRel`, then the first `k`. -/
def topK (scores : ℕ → ℚ) (n k : ℕ) : List ℕ :=
  (List.insertionSort (TopkRel scores) (List.range n)).take k

/-- Masked log-probabilities (lines 186-201): a finished row's distribution
is overridden to put log-probability `0` on the padding token and
`tf.float32.min` elsewhere; unfinished rows keep the scorer's
log-probabilities. -/
def stepLogprobs (pad : ℕ) (lp : ℕ → ℕ → ℚ) (s : SearchState)
    (row tok : ℕ) : ℚ :=
  if s.finished.getD row false then (if tok = pad then 0 else floatMin)
  else lp row tok

/-- The `hyp_probs` matrix (line 205): parent's cumulative log-probability
plus the candidate token's masked log-probability. -/
def stepHypProbs (pad : ℕ) (lp : ℕ → ℕ → ℚ) (s : SearchState)
    (row tok : ℕ) : ℚ :=
  s.logprob_sum.getD row 0 + stepLogprobs pad lp s row tok

/-- The `hyp_lengths` vector (line 208): length + 1, except that a finished
row's length stays frozen. -/
def stepHypLengths (s : SearchState) (row : ℕ) : ℤ :=
  s.lengths.getD row 0 + 1 - (if s.finished.getD row false then 1 else 0)

/-- The `scores` matrix (lines 211-212): joint log-probability divided by
the length penalty of the candidate length. -/
def stepScores (pad : ℕ) (penalty : ℤ → ℚ) (lp : ℕ → ℕ → ℚ)
    (s : SearchState) (row tok : ℕ) : ℚ :=
  stepHypProbs pad lp s row tok / penalty (stepHypLengths s row)

/-- The `scores_flat` vector (lines 215-217): row-major flattening of the
`beam × vocabulary` score matrix, so flat index `i` stands for row `i / V`
and token `i % V`. -/
def stepScoresFlat (V pad : ℕ) (penalty : ℤ → ℚ) (lp : ℕ → ℕ → ℚ)
    (s : SearchState) (i : ℕ) : ℚ :=
  stepScores pad penalty lp s (i / V) (i % V)

/-- The flat indices selected by `tf.nn.top_k` in one step (lines 220-224). -/
def stepTopK (B V pad : ℕ) (penalty : ℤ → ℚ) (lp : ℕ → ℕ → ℚ)
    (s : SearchState) : List ℕ :=
  topK (stepScoresFlat V pad penalty lp s) (B * V) B

/-- One iteration of the beam search body (`get_body`, lines 186-266):
select the top `B` flat candidates, decode each into parent row (`tf.div`,
line 238) and token id (`tf.mod`, line 235), gather the new raw
log-probability sums from `hyp_probs` (line 230), gather lengths from the
parent rows (line 244), propagate finished flags or-ed with the chosen
token equalling the end token (lines 247-250), and record the step's
scores, parent ids and token ids (lines 255-258). -/
def bsStep (B V pad endi : ℕ) (penalty : ℤ → ℚ) (lp : ℕ → ℕ → ℚ)
    (s : SearchState) : SearchState × SearchStepOutput :=
  let topk_indices := stepTopK B V pad penalty lp s
  let topk_scores := topk_indices.map (stepScoresFlat V pad penalty lp s)
  let next_word_ids := topk_indices.map (fun i => i % V)
  let next_beam_ids := topk_indices.map (fun i => i / V)
  let next_logprob_sum := topk_indices.map
    (fun i => stepHypProbs pad lp s (i / V) (i % V))
  let next_lengths := next_beam_ids.map (stepHypLengths s)
  let next_finished := topk_indices.map
    (fun i => s.finished.getD (i / V) false || decide (i % V = endi))
  (⟨next_logprob_sum, next_lengths, next_finished, next_word_ids⟩,
   ⟨topk_scores, next_beam_ids, next_word_ids⟩)

/-- The `tf.while_loop` of `_decoding_loop` (lines 138-145): the condition,
tested before every iteration, is only `step < max_steps` (lines 138-140);
the body appends one `SearchStepOutput` per iteration and the step counter
advances by one.  `scorer t` is the opaque scorer's log-probability matrix
at step `t`.  The extra `fuel` argument exists solely to make the
recursion structural (Lean-side bookkeeping): it is an upper bound on the
remaining iterations, initialised to `maxSteps - step` in
`decodingLoopFrom` below, and the loop's only exit in the source — tested
before the fuel is touched — remains `step < maxSteps`. -/
def decodingLoopGo (B V pad endi : ℕ) (penalty : ℤ → ℚ)
    (scorer : ℕ → ℕ → ℕ → ℚ) (maxSteps : ℕ) :
    ℕ → ℕ → SearchState → List SearchStepOutput
  | 0, _, _ => []
  | fuel + 1, step, s =>
    if step < maxSteps then
      let r := bsStep B V pad endi penalty (scorer step) s
      r.2 ::
        decodingLoopGo B V pad endi penalty scorer maxSteps fuel (step + 1) r.1
    else []

/-- The while loop entered at step counter `step`: the fuel bound
`maxSteps - step` is exact, so the loop stops exactly when
`step < maxSteps` first fails. -/
def decodingLoopFrom (B V pad endi : ℕ) (penalty : ℤ → ℚ)
    (scorer : ℕ → ℕ → ℕ → ℚ) (maxSteps step : ℕ) (s : SearchState) :
    List SearchStepOutput :=
  decodingLoopGo B V pad endi penalty scorer maxSteps (maxSteps - step) step s

/-- The initial `SearchState` (`get_initial_loop_state`, lines 104-114):
zero log-probability sums, all lengths one, nothing finished, every row's
last word the start token. -/
def initialSearchState (B start : ℕ) : SearchState :=
  ⟨List.replicate B 0, List.replicate B 1, List.replicate B false,
   List.replicate B start⟩

/-- The full decode (`_decoding_loop`, lines 132-153): run the while loop
from step `0` on the initial state and stack the recorded steps into three
`steps × beam_size` matrices. -/
def decode (B V pad endi start : ℕ) (penalty : ℤ → ℚ)
    (scorer : ℕ → ℕ → ℕ → ℚ) (maxSteps : ℕ) : StackedOutput :=
  let outs := decodingLoopFrom B V pad endi penalty scorer maxSteps 0
    (initialSearchState B start)
  ⟨outs.map SearchStepOutput.scores, outs.map SearchStepOutput.parent_ids,
   outs.map SearchStepOutput.token_ids⟩

/-- Error message of `tf.nn.top_k`'s static shape validation: the input's
last dimension must be at least `k`. -/
def topkShapeError : String :=
  "top_k requires the last dimension of its input to be at least k"

/-- Construction of a `BeamSearchDecoder` (`__init__`, lines 73-92).
`ModelPart.__init__` only stores the name and checkpoint paths
(`model_part.py`, lines 19-30) and `check_argument_types` checks static
types only: no statement examines the values of `beam_size`, `max_steps`
or the vocabulary size before `self.outputs = self._decoding_loop()`
builds the graph.  Building the graph traces the loop body once (whatever
the step limit), and `tf.nn.top_k` (lines 220-221) statically requires the
last dimension of its input — the flattened score vector of size
`beam_size * V` (lines 215-217) — to be at least `k = beam_size`, so graph
construction raises exactly when `beam_size * V < beam_size`, i.e. when
`beam_size ≥ 1` and the vocabulary is empty.  That shape error, modelled
as `Except.error`, is the only failure a configuration can cause here;
there is no value precondition check, and every other configuration
constructs successfully. -/
def beamSearchDecoder_init (B V pad endi start : ℕ) (penalty : ℤ → ℚ)
    (scorer : ℕ → ℕ → ℕ → ℚ) (maxSteps : ℕ) :
    Except String StackedOutput :=
  if B * V < B then Except.error topkShapeError
  else Except.ok (decode B V pad endi start penalty scorer maxSteps)

/-- A feed dictionary (`model_part.py`, line 13): a mapping from
placeholder tensors to values; only the empty dictionary occurs here. -/
abbrev FeedDict := List (ℕ × ℚ)

/-- The decoder's `feed_dict` (lines 319-329): `assert not train`, then
`assert len(dataset) == 1`, then return the empty dictionary.  A failed
`assert` raises, modelled as `none`. -/
def feed_dict (datasetLen : ℕ) (train : Bool) : Option FeedDict :=
  if train then none
  else if datasetLen = 1 then some [] else none

/-- The `_length_penalty` function (lines 331-335), the lp term of
equation 14 of Wu et al. (2016): `(5 + L) ^ α / (5 + 1) ^ α`, over the
reals with real exponentiation. -/
noncomputable def length_penalty (alpha : ℝ) (L : ℤ) : ℝ :=
  (5 + (L : ℝ)) ^ alpha / (5 + 1) ^ alpha

/-! Helper lemmas about list indexing and the top-k selection. -/

theorem getD_map_of_lt {α β : Type} (f : α → β) (l : List α) (j : ℕ) (d : β)
    (e : α) (hj : j < l.length) : (l.map f).getD j d = f (l.getD j e) := by
  have h1 : j < (l.map f).length := by simpa using hj
  rw [List.getD_eq_getElem?_getD, List.getElem?_eq_getElem h1,
      List.getD_eq_getElem?_getD, List.getElem?_eq_getElem hj]
  simp

theorem getD_mem_of_lt {α : Type} (l : List α) (j : ℕ) (d : α)
    (hj : j < l.length) : l.getD j d ∈ l := by
  rw [List.getD_eq_getElem?_getD, List.getElem?_eq_getElem hj]
  exact List.getElem_mem hj

theorem topK_length (scores : ℕ → ℚ) (n k : ℕ) (h : k ≤ n) :
    (topK scores n k).length = k := by
  unfold topK
  rw [List.length_take, List.length_insertionSort, List.length_range]
  omega

theorem topK_sorted (scores : ℕ → ℚ) (n k : ℕ) :
    (topK scores n k).Pairwise (TopkRel scores) :=
  (List.sorted_insertionSort (TopkRel scores) (List.range n)).sublist
    (List.take_sublist k _)

theorem topK_mem_lt {scores : ℕ → ℚ} {n k i : ℕ}
    (h : i ∈ topK scores n k) : i < n := by
  have h2 : i ∈ List.insertionSort (TopkRel scores) (List.range n) :=
    (List.take_sublist k _).mem h
  rw [List.mem_insertionSort, List.mem_range] at h2
  exact h2

theorem topK_nodup (scores : ℕ → ℚ) (n k : ℕ) : (topK scores n k).Nodup :=
  (((List.perm_insertionSort (TopkRel scores) (List.range n)).nodup_iff).mpr
    (List.nodup_range n)).sublist (List.take_sublist k _)

theorem topK_take_drop {scores : ℕ → ℚ} {n k j : ℕ} (hj : j < n)
    (hnot : j ∉ topK scores n k) :
    j ∈ (List.insertionSort (TopkRel scores) (List.range n)).drop k := by
  have hmem : j ∈ List.insertionSort (TopkRel scores) (List.range n) := by
    rw [List.mem_insertionSort, List.mem_range]
    exact hj
  rw [← List.take_append_drop k
    (List.insertionSort (TopkRel scores) (List.range n)),
    List.mem_append] at hmem
  exact hmem.resolve_left hnot

theorem topK_complete {scores : ℕ → ℚ} {n k : ℕ} {i j : ℕ}
    (hi : i ∈ topK scores n k) (hj : j < n) (hnot : j ∉ topK scores n k) :
    scores j ≤ scores i := by
  have hp := List.sorted_insertionSort (TopkRel scores) (List.range n)
  rw [← List.take_append_drop k
    (List.insertionSort (TopkRel scores) (List.range n))] at hp
  have hrel := (List.pairwise_append.mp hp).2.2 i hi j (topK_take_drop hj hnot)
  exact topkLe_score hrel

theorem topK_stable {scores : ℕ → ℚ} {n k : ℕ} {i j : ℕ} (hij : i < j)
    (he : scores i = scores j) (hj : j ∈ topK scores n k) :
    i ∈ topK scores n k := by
  by_contra hnot
  have hin : i < n := lt_trans hij (topK_mem_lt hj)
  have hp := List.sorted_insertionSort (TopkRel scores) (List.range n)
  rw [← List.take_append_drop k
    (List.insertionSort (TopkRel scores) (List.range n))] at hp
  have hrel := (List.pairwise_append.mp hp).2.2 j hj i (topK_take_drop hin hnot)
  have := topkLe_tie hrel he.symm
  omega

theorem stepTopK_length (B V pad : ℕ) (penalty : ℤ → ℚ) (lp : ℕ → ℕ → ℚ)
    (s : SearchState) (hV : 0 < V) :
    (stepTopK B V pad penalty lp s).length = B :=
  topK_length _ _ _ (Nat.le_mul_of_pos_right B hV)

theorem stepTopK_mem_lt {B V pad : ℕ} {penalty : ℤ → ℚ} {lp : ℕ → ℕ → ℚ}
    {s : SearchState} {i : ℕ} (h : i ∈ stepTopK B V pad penalty lp s) :
    i < B * V :=
  topK_mem_lt h

theorem decodingLoopGo_length (B V pad endi : ℕ) (penalty : ℤ → ℚ)
    (scorer : ℕ → ℕ → ℕ → ℚ) (maxSteps : ℕ) :
    ∀ (fuel step : ℕ) (s : SearchState),
      (decodingLoopGo B V pad endi penalty scorer maxSteps fuel step s).length
        = min fuel (maxSteps - step) := by
  intro fuel
  induction fuel with
  | zero => intro step s; simp [decodingLoopGo]
  | succ k ih =>
    intro step s
    by_cases h : step < maxSteps
    · simp only [decodingLoopGo, if_pos h, List.length_cons, ih]
      omega
    · simp only [decodingLoopGo, if_neg h, List.length_nil]
      omega

theorem mem_decodingLoopGo {B V pad endi : ℕ} {penalty : ℤ → ℚ}
    {scorer : ℕ → ℕ → ℕ → ℚ} {maxSteps : ℕ} :
    ∀ {fuel step : ℕ} {s : SearchState} {o : SearchStepOutput},
      o ∈ decodingLoopGo B V pad endi penalty scorer maxSteps fuel step s →
      ∃ (t : ℕ) (s0 : SearchState),
        o = (bsStep B V pad endi penalty (scorer t) s0).2 := by
  intro fuel
  induction fuel with
  | zero => intro step s o h; simp [decodingLoopGo] at h
  | succ k ih =>
    intro step s o h
    by_cases hc : step < maxSteps
    · simp only [decodingLoopGo, if_pos hc, List.mem_cons] at h
      rcases h with h | h
      · exact ⟨step, s, h⟩
      · exact ih h
    · simp only [decodingLoopGo, if_neg hc, List.not_mem_nil] at h

/-! Projections of one decoding step, as equations on the selected flat
indices. -/

theorem bsStep_snd_scores (B V pad endi : ℕ) (penalty : ℤ → ℚ)
    (lp : ℕ → ℕ → ℚ) (s : SearchState) :
    (bsStep B V pad endi penalty lp s).2.scores =
      (stepTopK B V pad penalty lp s).map (stepScoresFlat V pad penalty lp s)
    := rfl

theorem bsStep_snd_parent_ids (B V pad endi : ℕ) (penalty : ℤ → ℚ)
    (lp : ℕ → ℕ → ℚ) (s : SearchState) :
    (bsStep B V pad endi penalty lp s).2.parent_ids =
      (stepTopK B V pad penalty lp s).map (fun i => i / V) := rfl

theorem bsStep_snd_token_ids (B V pad endi : ℕ) (penalty : ℤ → ℚ)
    (lp : ℕ → ℕ → ℚ) (s : SearchState) :
    (bsStep B V pad endi penalty lp s).2.token_ids =
      (stepTopK B V pad penalty lp s).map (fun i => i % V) := rfl

theorem bsStep_fst_logprob_sum (B V pad endi : ℕ) (penalty : ℤ → ℚ)
    (lp : ℕ → ℕ → ℚ) (s : SearchState) :
    (bsStep B V pad endi penalty lp s).1.logprob_sum =
      (stepTopK B V pad penalty lp s).map
        (fun i => stepHypProbs pad lp s (i / V) (i % V)) := rfl

theorem bsStep_fst_finished (B V pad endi : ℕ) (penalty : ℤ → ℚ)
    (lp : ℕ → ℕ → ℚ) (s : SearchState) :
    (bsStep B V pad endi penalty lp s).1.finished =
      (stepTopK B V pad penalty lp s).map
        (fun i => s.finished.getD (i / V) false || decide (i % V = endi)) :=
  rfl

/-! Claim theorems. -/

/-- Claim C1, counterexample: a configuration with beam width `0`,
vocabulary size `0` and maximum step count `0` (all three `≤ 0`) is NOT
rejected — construction succeeds, returning the (empty) stacked outputs:
`__init__` (lines 73-92) performs no value precondition check before
building the decoding loop, and with `k = beam_size = 0` even the top-k
shape validation passes. -/
theorem beamSearch_init_not_rejected :
    beamSearchDecoder_init 0 0 0 0 0 (fun _ => 1) (fun _ _ _ => 0) 0 =
      Except.ok ⟨[], [], []⟩ := rfl

/-- Claim C1, amended: construction of the decoder performs no value
precondition check on beam width, max steps or vocabulary size; the only
construction-time failure is the static shape validation of `tf.nn.top_k`
while the loop body is traced, which rejects exactly the configurations
whose flattened score vector is shorter than the beam width
(`beam_size * V < beam_size`, i.e. beam width `≥ 1` with vocabulary size
`0`).  Every other configuration — including beam width `0` and max steps
`≤ 0` — is accepted without failure, and the decoding loop then runs
`maxSteps` iterations (zero of them when the maximum step count is
`≤ 0`). -/
theorem beamSearch_init_no_precondition_check (B V pad endi start : ℕ)
    (penalty : ℤ → ℚ) (scorer : ℕ → ℕ → ℕ → ℚ) (maxSteps : ℕ) :
    (B * V < B →
      beamSearchDecoder_init B V pad endi start penalty scorer maxSteps =
        Except.error topkShapeError) ∧
    (B ≤ B * V →
      ∃ out, beamSearchDecoder_init B V pad endi start penalty scorer
          maxSteps = Except.ok out ∧ out.scores.length = maxSteps) := by
  constructor
  · intro h
    unfold beamSearchDecoder_init
    rw [if_pos h]
  · intro h
    refine ⟨decode B V pad endi start penalty scorer maxSteps, ?_, ?_⟩
    · unfold beamSearchDecoder_init
      rw [if_neg (by omega)]
    · show ((decodingLoopFrom B V pad endi penalty scorer maxSteps 0
        (initialSearchState B start)).map SearchStepOutput.scores).length
          = maxSteps
      rw [List.length_map]
      unfold decodingLoopFrom
      rw [decodingLoopGo_length]
      omega

/-- Claim C1 (amended), witness: both branches — at beam width `1` with
vocabulary size `0`, construction fails the top-k shape validation; at
beam width `1` with vocabulary size `1`, it succeeds with one output row
per step. -/
theorem beamSearch_init_no_precondition_check_witness :
    ((1 * 0 < 1 →
       beamSearchDecoder_init 1 0 0 0 0 (fun _ => 1) (fun _ _ _ => 0) 1 =
         Except.error topkShapeError) ∧
     (1 ≤ 1 * 0 →
       ∃ out, beamSearchDecoder_init 1 0 0 0 0 (fun _ => 1)
           (fun _ _ _ => 0) 1 = Except.ok out ∧ out.scores.length = 1)) ∧
    ((1 * 1 < 1 →
       beamSearchDecoder_init 1 1 0 0 0 (fun _ => 1) (fun _ _ _ => 0) 1 =
         Except.error topkShapeError) ∧
     (1 ≤ 1 * 1 →
       ∃ out, beamSearchDecoder_init 1 1 0 0 0 (fun _ => 1)
           (fun _ _ _ => 0) 1 = Except.ok out ∧ out.scores.length = 1)) :=
  ⟨beamSearch_init_no_precondition_check 1 0 0 0 0 (fun _ => 1)
     (fun _ _ _ => 0) 1,
   beamSearch_init_no_precondition_check 1 1 0 0 0 (fun _ => 1)
     (fun _ _ _ => 0) 1⟩

/-- Claim C2: the decoding loop executes exactly `maxSteps` iterations and
then terminates, for EVERY beam state `s` — in particular for a state in
which every hypothesis is marked finished, since the loop condition
(`cond`, lines 138-140) compares only the step counter with the maximum and
never inspects the finished flags: one step output is recorded per
iteration, so exactly `maxSteps` outputs are produced, never fewer. -/
theorem decoding_loop_runs_exactly_max_steps (B V pad endi : ℕ)
    (penalty : ℤ → ℚ) (scorer : ℕ → ℕ → ℕ → ℚ) (maxSteps : ℕ)
    (s : SearchState) :
    (decodingLoopFrom B V pad endi penalty scorer maxSteps 0 s).length =
      maxSteps := by
  unfold decodingLoopFrom
  rw [decodingLoopGo_length]
  omega

/-- Claim C8: the length penalty equals `((5 + L) / 6) ^ α` for every
integer length `L ≥ 1` and every exponent `α`; it is monotonically
non-decreasing in the length when `α > 0`, constantly `1` when `α = 0`,
and exactly `1` at `L = 1` for every `α`. -/
theorem length_penalty_formula (alpha : ℝ) (L Lp : ℤ) (hL : 1 ≤ L)
    (hLL : L ≤ Lp) :
    length_penalty alpha L = ((5 + (L : ℝ)) / 6) ^ alpha ∧
    (0 < alpha → length_penalty alpha L ≤ length_penalty alpha Lp) ∧
    length_penalty 0 L = 1 ∧
    length_penalty alpha 1 = 1 := by
  have hLral : (1 : ℝ) ≤ (L : ℝ) := by exact_mod_cast hL
  have hLLr : (L : ℝ) ≤ (Lp : ℝ) := by exact_mod_cast hLL
  have h5L : (0 : ℝ) ≤ 5 + (L : ℝ) := by linarith
  refine ⟨?_, ?_, ?_, ?_⟩
  · rw [length_penalty, Real.div_rpow h5L (by norm_num : (0:ℝ) ≤ 6)]
    norm_num
  · intro ha
    unfold length_penalty
    have h6 : (0 : ℝ) < (5 + 1) ^ alpha :=
      Real.rpow_pos_of_pos (by norm_num) alpha
    rw [div_le_div_iff_of_pos_right h6]
    exact Real.rpow_le_rpow h5L (by linarith) ha.le
  · unfold length_penalty
    rw [Real.rpow_zero, Real.rpow_zero]
    norm_num
  · unfold length_penalty
    push_cast
    rw [div_self (ne_of_gt (Real.rpow_pos_of_pos (by norm_num) alpha))]

/-- Claim C8, witness: the four conclusions at `α = 1`, `L = 1`,
`L' = 2`. -/
theorem length_penalty_formula_witness :
    (1 : ℤ) ≤ 1 ∧ (1 : ℤ) ≤ 2 ∧
    (length_penalty 1 1 = ((5 + ((1 : ℤ) : ℝ)) / 6) ^ (1 : ℝ) ∧
     ((0 : ℝ) < 1 → length_penalty 1 1 ≤ length_penalty 1 2) ∧
     length_penalty 0 1 = 1 ∧
     length_penalty 1 1 = 1) :=
  ⟨le_refl 1, by norm_num,
   length_penalty_formula 1 1 2 (le_refl 1) (by norm_num)⟩

/-- Claim C9: `feed_dict` (lines 319-329) returns the empty feed
dictionary when the train flag is false and the dataset holds exactly one
item, and fails an assertion (returning nothing) when the train flag is
true or the dataset length differs from one. -/
theorem feed_dict_spec (n : ℕ) (t : Bool) :
    (t = false → n = 1 → feed_dict n t = some []) ∧
    (t = true ∨ n ≠ 1 → feed_dict n t = none) := by
  constructor
  · rintro rfl rfl
    rfl
  · rintro (rfl | hn)
    · rfl
    · cases t
      · simp [feed_dict, hn]
      · rfl

/-- Claim C9, witness: both branches exercised, at `(len, train)` equal to
`(1, false)` (empty dictionary returned) and `(2, true)` (assertion
failure). -/
theorem feed_dict_spec_witness :
    ((false = false → 1 = 1 → feed_dict 1 false = some []) ∧
     (false = true ∨ 1 ≠ 1 → feed_dict 1 false = none)) ∧
    ((true = false → 2 = 1 → feed_dict 2 true = some []) ∧
     (true = true ∨ 2 ≠ 1 → feed_dict 2 true = none)) :=
  ⟨feed_dict_spec 1 false, feed_dict_spec 2 true⟩

/-- Claim C3: after an iteration, the cumulative log-probability stored in
the new `SearchState` for each surviving slot equals exactly the parent
row's previously stored cumulative log-probability plus the selected
token's log-probability under the masked distribution — the raw,
non-length-normalized sum: the length penalty divides only the transient
ranking scores (line 211) and never enters the gathered `hyp_probs`
(lines 227-230). -/
theorem logprob_sum_raw_parent_plus_token (B V pad endi : ℕ)
    (penalty : ℤ → ℚ) (lp : ℕ → ℕ → ℚ) (s : SearchState) (j : ℕ)
    (hV : 0 < V) (hj : j < B) :
    (bsStep B V pad endi penalty lp s).1.logprob_sum.getD j 0 =
      s.logprob_sum.getD
        ((bsStep B V pad endi penalty lp s).2.parent_ids.getD j 0) 0 +
      stepLogprobs pad lp s
        ((bsStep B V pad endi penalty lp s).2.parent_ids.getD j 0)
        ((bsStep B V pad endi penalty lp s).2.token_ids.getD j 0) := by
  have hlen : j < (stepTopK B V pad penalty lp s).length := by
    rw [stepTopK_length B V pad penalty lp s hV]
    exact hj
  rw [bsStep_fst_logprob_sum, bsStep_snd_parent_ids, bsStep_snd_token_ids,
    getD_map_of_lt _ _ j 0 0 hlen, getD_map_of_lt _ _ j 0 0 hlen,
    getD_map_of_lt _ _ j 0 0 hlen]
  rfl

/-- Claim C3, witness: the stored-sum equation at beam width `1`,
vocabulary size `1`, slot `0`, on the initial state with a zero scorer. -/
theorem logprob_sum_raw_parent_plus_token_witness :
    0 < 1 ∧ 0 < 1 ∧
    (bsStep 1 1 0 0 (fun _ => 1) (fun _ _ => 0)
        (initialSearchState 1 0)).1.logprob_sum.getD 0 0 =
      (initialSearchState 1 0).logprob_sum.getD
        ((bsStep 1 1 0 0 (fun _ => 1) (fun _ _ => 0)
          (initialSearchState 1 0)).2.parent_ids.getD 0 0) 0 +
      stepLogprobs 0 (fun _ _ => 0) (initialSearchState 1 0)
        ((bsStep 1 1 0 0 (fun _ => 1) (fun _ _ => 0)
          (initialSearchState 1 0)).2.parent_ids.getD 0 0)
        ((bsStep 1 1 0 0 (fun _ => 1) (fun _ _ => 0)
          (initialSearchState 1 0)).2.token_ids.getD 0 0) :=
  ⟨Nat.one_pos, Nat.one_pos,
   logprob_sum_raw_parent_plus_token 1 1 0 0 (fun _ => 1) (fun _ _ => 0)
     (initialSearchState 1 0) 0 Nat.one_pos Nat.one_pos⟩

/-- Claim C7: the new finished flag of every selected slot is true exactly
when the newly chosen token equals the end token OR the parent row was
already finished (lines 246-250) — so along every parent-pointer chain the
flag is monotonic and a hypothesis never returns from finished to
unfinished. -/
theorem finished_flag_monotonic (B V pad endi : ℕ) (penalty : ℤ → ℚ)
    (lp : ℕ → ℕ → ℚ) (s : SearchState) (j : ℕ) (hV : 0 < V) (hj : j < B) :
    (bsStep B V pad endi penalty lp s).1.finished.getD j false =
      (s.finished.getD
         ((bsStep B V pad endi penalty lp s).2.parent_ids.getD j 0) false
       || decide
         ((bsStep B V pad endi penalty lp s).2.token_ids.getD j 0 = endi))
    := by
  have hlen : j < (stepTopK B V pad penalty lp s).length := by
    rw [stepTopK_length B V pad penalty lp s hV]
    exact hj
  rw [bsStep_fst_finished, bsStep_snd_parent_ids, bsStep_snd_token_ids,
    getD_map_of_lt _ _ j false 0 hlen, getD_map_of_lt _ _ j 0 0 hlen,
    getD_map_of_lt _ _ j 0 0 hlen]

/-- Claim C7, witness: the finished-flag equation at beam width `1`,
vocabulary size `1`, slot `0`, on the initial state with a zero scorer. -/
theorem finished_flag_monotonic_witness :
    0 < 1 ∧ 0 < 1 ∧
    (bsStep 1 1 0 0 (fun _ => 1) (fun _ _ => 0)
        (initialSearchState 1 0)).1.finished.getD 0 false =
      ((initialSearchState 1 0).finished.getD
         ((bsStep 1 1 0 0 (fun _ => 1) (fun _ _ => 0)
           (initialSearchState 1 0)).2.parent_ids.getD 0 0) false
       || decide
         ((bsStep 1 1 0 0 (fun _ => 1) (fun _ _ => 0)
           (initialSearchState 1 0)).2.token_ids.getD 0 0 = 0)) :=
  ⟨Nat.one_pos, Nat.one_pos,
   finished_flag_monotonic 1 1 0 0 (fun _ => 1) (fun _ _ => 0)
     (initialSearchState 1 0) 0 Nat.one_pos Nat.one_pos⟩

theorem decode_scores_eq (B V pad endi start : ℕ) (penalty : ℤ → ℚ)
    (scorer : ℕ → ℕ → ℕ → ℚ) (M : ℕ) :
    (decode B V pad endi start penalty scorer M).scores =
      (decodingLoopFrom B V pad endi penalty scorer M 0
        (initialSearchState B start)).map SearchStepOutput.scores := rfl

theorem decode_parent_ids_eq (B V pad endi start : ℕ) (penalty : ℤ → ℚ)
    (scorer : ℕ → ℕ → ℕ → ℚ) (M : ℕ) :
    (decode B V pad endi start penalty scorer M).parent_ids =
      (decodingLoopFrom B V pad endi penalty scorer M 0
        (initialSearchState B start)).map SearchStepOutput.parent_ids := rfl

theorem decode_token_ids_eq (B V pad endi start : ℕ) (penalty : ℤ → ℚ)
    (scorer : ℕ → ℕ → ℕ → ℚ) (M : ℕ) :
    (decode B V pad endi start penalty scorer M).token_ids =
      (decodingLoopFrom B V pad endi penalty scorer M 0
        (initialSearchState B start)).map SearchStepOutput.token_ids := rfl

theorem decodingLoopFrom_zero_length (B V pad endi : ℕ) (penalty : ℤ → ℚ)
    (scorer : ℕ → ℕ → ℕ → ℚ) (M : ℕ) (s : SearchState) :
    (decodingLoopFrom B V pad endi penalty scorer M 0 s).length = M := by
  unfold decodingLoopFrom
  rw [decodingLoopGo_length]
  omega

/-- Claim C5: for beam width, vocabulary size and maximum step count all
at least one, the decode operation returns three stacked arrays of exact
shape `M × B`; every parent index is in `[0, B)` and every token id is in
`[0, V)` — each selected flat index decodes to its parent row by integer
division (line 238) and to its token id by remainder (line 235). -/
theorem decode_shapes_and_ranges (B V pad endi start : ℕ) (penalty : ℤ → ℚ)
    (scorer : ℕ → ℕ → ℕ → ℚ) (M : ℕ) (hB : 0 < B) (hV : 0 < V)
    (hM : 0 < M) :
    (decode B V pad endi start penalty scorer M).scores.length = M ∧
    (decode B V pad endi start penalty scorer M).parent_ids.length = M ∧
    (decode B V pad endi start penalty scorer M).token_ids.length = M ∧
    (∀ row ∈ (decode B V pad endi start penalty scorer M).scores,
       row.length = B) ∧
    (∀ row ∈ (decode B V pad endi start penalty scorer M).parent_ids,
       row.length = B ∧ ∀ p ∈ row, p < B) ∧
    (∀ row ∈ (decode B V pad endi start penalty scorer M).token_ids,
       row.length = B ∧ ∀ tok ∈ row, tok < V) := by
  refine ⟨?_, ?_, ?_, ?_, ?_, ?_⟩
  · rw [decode_scores_eq, List.length_map, decodingLoopFrom_zero_length]
  · rw [decode_parent_ids_eq, List.length_map, decodingLoopFrom_zero_length]
  · rw [decode_token_ids_eq, List.length_map, decodingLoopFrom_zero_length]
  · intro row hrow
    rw [decode_scores_eq] at hrow
    rcases List.mem_map.mp hrow with ⟨o, ho, rfl⟩
    rcases mem_decodingLoopGo ho with ⟨t, s0, rfl⟩
    rw [bsStep_snd_scores, List.length_map,
      stepTopK_length _ _ _ _ _ _ hV]
  · intro row hrow
    rw [decode_parent_ids_eq] at hrow
    rcases List.mem_map.mp hrow with ⟨o, ho, rfl⟩
    rcases mem_decodingLoopGo ho with ⟨t, s0, rfl⟩
    rw [bsStep_snd_parent_ids]
    refine ⟨by rw [List.length_map, stepTopK_length _ _ _ _ _ _ hV], ?_⟩
    intro p hp
    rcases List.mem_map.mp hp with ⟨i, hi, rfl⟩
    exact (Nat.div_lt_iff_lt_mul hV).mpr (stepTopK_mem_lt hi)
  · intro row hrow
    rw [decode_token_ids_eq] at hrow
    rcases List.mem_map.mp hrow with ⟨o, ho, rfl⟩
    rcases mem_decodingLoopGo ho with ⟨t, s0, rfl⟩
    rw [bsStep_snd_token_ids]
    refine ⟨by rw [List.length_map, stepTopK_length _ _ _ _ _ _ hV], ?_⟩
    intro tok htok
    rcases List.mem_map.mp htok with ⟨i, hi, rfl⟩
    exact Nat.mod_lt i hV

/-- Claim C5, witness: shapes and ranges at beam width `1`, vocabulary
size `1`, one step, with a zero scorer. -/
theorem decode_shapes_and_ranges_witness :
    0 < 1 ∧
    ((decode 1 1 0 0 0 (fun _ => 1) (fun _ _ _ => 0) 1).scores.length = 1 ∧
     (decode 1 1 0 0 0 (fun _ => 1) (fun _ _ _ => 0) 1).parent_ids.length
       = 1 ∧
     (decode 1 1 0 0 0 (fun _ => 1) (fun _ _ _ => 0) 1).token_ids.length
       = 1 ∧
     (∀ row ∈ (decode 1 1 0 0 0 (fun _ => 1) (fun _ _ _ => 0) 1).scores,
        row.length = 1) ∧
     (∀ row ∈ (decode 1 1 0 0 0 (fun _ => 1) (fun _ _ _ => 0) 1).parent_ids,
        row.length = 1 ∧ ∀ p ∈ row, p < 1) ∧
     (∀ row ∈ (decode 1 1 0 0 0 (fun _ => 1) (fun _ _ _ => 0) 1).token_ids,
        row.length = 1 ∧ ∀ tok ∈ row, tok < 1)) :=
  ⟨Nat.one_pos,
   decode_shapes_and_ranges 1 1 0 0 0 (fun _ => 1) (fun _ _ _ => 0) 1
     Nat.one_pos Nat.one_pos Nat.one_pos⟩

/-- Claim C6: at every iteration the selected candidates are exactly the
`B` largest entries of the flattened `B·V` vector of normalized scores,
via a deterministic stable top-k: `B` distinct in-range flat indices are
chosen, every unchosen candidate scores no higher than every chosen one,
and among tied raw scores the smaller row-major flat index is preferred;
the step's parent ids and token ids are these indices divided by and
reduced modulo the vocabulary size. -/
theorem topk_selects_largest_stable (B V pad endi : ℕ) (penalty : ℤ → ℚ)
    (lp : ℕ → ℕ → ℚ) (s : SearchState) (hV : 0 < V) :
    (bsStep B V pad endi penalty lp s).2.parent_ids =
      (stepTopK B V pad penalty lp s).map (fun i => i / V) ∧
    (bsStep B V pad endi penalty lp s).2.token_ids =
      (stepTopK B V pad penalty lp s).map (fun i => i % V) ∧
    (stepTopK B V pad penalty lp s).length = B ∧
    (stepTopK B V pad penalty lp s).Nodup ∧
    (∀ i ∈ stepTopK B V pad penalty lp s, i < B * V) ∧
    (∀ i ∈ stepTopK B V pad penalty lp s, ∀ j, j < B * V →
       j ∉ stepTopK B V pad penalty lp s →
       stepScoresFlat V pad penalty lp s j ≤
         stepScoresFlat V pad penalty lp s i) ∧
    (∀ i j, i < j →
       stepScoresFlat V pad penalty lp s i =
         stepScoresFlat V pad penalty lp s j →
       j ∈ stepTopK B V pad penalty lp s →
       i ∈ stepTopK B V pad penalty lp s) :=
  ⟨rfl, rfl, stepTopK_length B V pad penalty lp s hV, topK_nodup _ _ _,
   fun _ hi => stepTopK_mem_lt hi,
   fun _ hi _ hj hnot => topK_complete hi hj hnot,
   fun _ _ hij he hj => topK_stable hij he hj⟩

/-- Claim C6, witness: the top-k selection properties at beam width `1`,
vocabulary size `1`, on the initial state with a zero scorer. -/
theorem topk_selects_largest_stable_witness :
    0 < 1 ∧
    ((bsStep 1 1 0 0 (fun _ => 1) (fun _ _ => 0)
        (initialSearchState 1 0)).2.parent_ids =
      (stepTopK 1 1 0 (fun _ => 1) (fun _ _ => 0)
        (initialSearchState 1 0)).map (fun i => i / 1) ∧
     (bsStep 1 1 0 0 (fun _ => 1) (fun _ _ => 0)
        (initialSearchState 1 0)).2.token_ids =
      (stepTopK 1 1 0 (fun _ => 1) (fun _ _ => 0)
        (initialSearchState 1 0)).map (fun i => i % 1) ∧
     (stepTopK 1 1 0 (fun _ => 1) (fun _ _ => 0)
        (initialSearchState 1 0)).length = 1 ∧
     (stepTopK 1 1 0 (fun _ => 1) (fun _ _ => 0)
        (initialSearchState 1 0)).Nodup ∧
     (∀ i ∈ stepTopK 1 1 0 (fun _ => 1) (fun _ _ => 0)
        (initialSearchState 1 0), i < 1 * 1) ∧
     (∀ i ∈ stepTopK 1 1 0 (fun _ => 1) (fun _ _ => 0)
        (initialSearchState 1 0), ∀ j, j < 1 * 1 →
        j ∉ stepTopK 1 1 0 (fun _ => 1) (fun _ _ => 0)
          (initialSearchState 1 0) →
        stepScoresFlat 1 0 (fun _ => 1) (fun _ _ => 0)
          (initialSearchState 1 0) j ≤
          stepScoresFlat 1 0 (fun _ => 1) (fun _ _ => 0)
            (initialSearchState 1 0) i) ∧
     (∀ i j, i < j →
        stepScoresFlat 1 0 (fun _ => 1) (fun _ _ => 0)
          (initialSearchState 1 0) i =
          stepScoresFlat 1 0 (fun _ => 1) (fun _ _ => 0)
            (initialSearchState 1 0) j →
        j ∈ stepTopK 1 1 0 (fun _ => 1) (fun _ _ => 0)
          (initialSearchState 1 0) →
        i ∈ stepTopK 1 1 0 (fun _ => 1) (fun _ _ => 0)
          (initialSearchState 1 0))) :=
  ⟨Nat.one_pos,
   topk_selects_largest_stable 1 1 0 0 (fun _ => 1) (fun _ _ => 0)
     (initialSearchState 1 0) Nat.one_pos⟩

theorem pairwise_ge_head (l : List ℚ) (h : l.Pairwise (fun a b => a ≥ b)) :
    ∀ q ∈ l, q ≤ l.getD 0 0 := by
  cases l with
  | nil => intro q hq; cases hq
  | cons a t =>
    intro q hq
    rcases List.mem_cons.mp hq with rfl | hq
    · exact le_refl q
    · exact (List.pairwise_cons.mp h).1 q hq

/-- Claim C10: at every iteration, the `B` normalized scores recorded in
the output log for that step are sorted in non-increasing order — the
top-k returns its values in descending order — so index `0` of each
step's score row holds that step's maximum normalized score. -/
theorem step_scores_sorted_descending (B V pad endi start : ℕ)
    (penalty : ℤ → ℚ) (scorer : ℕ → ℕ → ℕ → ℚ) (M t : ℕ) (ht : t < M) :
    ((decode B V pad endi start penalty scorer M).scores.getD t
        []).Pairwise (fun a b => a ≥ b) ∧
    ∀ q ∈ (decode B V pad endi start penalty scorer M).scores.getD t [],
      q ≤ ((decode B V pad endi start penalty scorer M).scores.getD t
        []).getD 0 0 := by
  have hlen : t < (decodingLoopFrom B V pad endi penalty scorer M 0
      (initialSearchState B start)).length := by
    rw [decodingLoopFrom_zero_length]
    exact ht
  have heq : (decode B V pad endi start penalty scorer M).scores.getD t []
      = SearchStepOutput.scores ((decodingLoopFrom B V pad endi penalty
          scorer M 0 (initialSearchState B start)).getD t ⟨[], [], []⟩) := by
    rw [decode_scores_eq]
    exact getD_map_of_lt _ _ t [] ⟨[], [], []⟩ hlen
  have hmem := getD_mem_of_lt _ t (⟨[], [], []⟩ : SearchStepOutput) hlen
  rcases mem_decodingLoopGo hmem with ⟨u, s0, hu⟩
  rw [heq, hu, bsStep_snd_scores]
  have hp : ((stepTopK B V pad penalty (scorer u) s0).map
      (stepScoresFlat V pad penalty (scorer u) s0)).Pairwise
        (fun a b => a ≥ b) :=
    List.pairwise_map.mpr ((topK_sorted _ _ _).imp
      (fun hab => topkLe_score hab))
  exact ⟨hp, pairwise_ge_head _ hp⟩

/-- Claim C10, witness: the sortedness of the recorded score row of the
first step, at beam width `1`, vocabulary size `1`, one step, zero
scorer. -/
theorem step_scores_sorted_descending_witness :
    0 < 1 ∧
    (((decode 1 1 0 0 0 (fun _ => 1) (fun _ _ _ => 0) 1).scores.getD 0
        []).Pairwise (fun a b => a ≥ b) ∧
     ∀ q ∈ (decode 1 1 0 0 0 (fun _ => 1) (fun _ _ _ => 0) 1).scores.getD
        0 [],
       q ≤ ((decode 1 1 0 0 0 (fun _ => 1) (fun _ _ _ => 0) 1).scores.getD
        0 []).getD 0 0) :=
  ⟨Nat.one_pos,
   step_scores_sorted_descending 1 1 0 0 0 (fun _ => 1) (fun _ _ _ => 0)
     1 0 Nat.one_pos⟩

/-- Beam state exhibiting the finite-mask boundary: two hypotheses, both
with cumulative log-probability `0` and length `1`; row `0` is finished,
row `1` is not. -/
def maskCexState : SearchState := ⟨[0, 0], [1, 1], [true, false], [0, 0]⟩

/-- Scorer output for the mask counterexample: the unfinished row `1` gets
log-probability `2 · float32.min` on every token (all its probability mass
has underflowed), row `0` is arbitrary (it is overridden by the mask). -/
def maskCexLogprobs (r _tok : ℕ) : ℚ := if r = 1 then 2 * floatMin else 0

/-- Claim C4, counterexample: with beam width `2`, vocabulary size `2`,
padding token `0` and the state `maskCexState`, slot `1` of the step's
output has parent row `0`, which is marked finished, yet emits token `1`,
not the padding token: the mask assigns the finite constant
`tf.float32.min` — not `−∞` — to the non-padding tokens of a finished row
(line 198), so when every competing candidate scores even lower
(here `2 · float32.min`), such a masked candidate is still selected by the
top-k. -/
theorem finished_parent_can_emit_nonpad :
    maskCexState.finished.getD
        ((bsStep 2 2 0 1 (fun _ => 1) maskCexLogprobs
          maskCexState).2.parent_ids.getD 1 0) false = true ∧
    (bsStep 2 2 0 1 (fun _ => 1) maskCexLogprobs
        maskCexState).2.token_ids.getD 1 0 ≠ 0 := by
  norm_num [bsStep, stepTopK, topK, TopkRel, topkLe, stepScoresFlat,
    stepScores, stepHypProbs, stepHypLengths, stepLogprobs, maskCexState,
    maskCexLogprobs, floatMin, List.insertionSort, List.orderedInsert,
    List.range_succ]

/-- Claim C4, amended: for every iteration and every selected beam slot
whose parent row was marked finished, the token id emitted for that slot
is the designated padding token, UNLESS the slot's newly stored cumulative
log-probability equals the parent's stored sum plus `tf.float32.min` — the
override of a finished row's distribution puts the finite constant
`tf.float32.min`, not `−∞`, on non-padding tokens, so a non-padding
continuation of a finished row can still be selected when all competing
candidates score at or below that masked level. -/
theorem finished_parent_emits_pad_or_masked (B V pad endi : ℕ)
    (penalty : ℤ → ℚ) (lp : ℕ → ℕ → ℚ) (s : SearchState) (j : ℕ)
    (hV : 0 < V) (hj : j < B)
    (hfin : s.finished.getD
        ((bsStep B V pad endi penalty lp s).2.parent_ids.getD j 0) false =
      true) :
    (bsStep B V pad endi penalty lp s).2.token_ids.getD j 0 = pad ∨
    (bsStep B V pad endi penalty lp s).1.logprob_sum.getD j 0 =
      s.logprob_sum.getD
        ((bsStep B V pad endi penalty lp s).2.parent_ids.getD j 0) 0 +
        floatMin := by
  have hlen : j < (stepTopK B V pad penalty lp s).length := by
    rw [stepTopK_length B V pad penalty lp s hV]
    exact hj
  rw [bsStep_snd_parent_ids, getD_map_of_lt _ _ j 0 0 hlen] at hfin
  rw [bsStep_snd_token_ids, getD_map_of_lt _ _ j 0 0 hlen]
  by_cases hpad : (stepTopK B V pad penalty lp s).getD j 0 % V = pad
  · exact Or.inl hpad
  · right
    rw [bsStep_fst_logprob_sum, getD_map_of_lt _ _ j 0 0 hlen,
      bsStep_snd_parent_ids, getD_map_of_lt _ _ j 0 0 hlen]
    unfold stepHypProbs stepLogprobs
    rw [if_pos hfin, if_neg hpad]

/-- Beam state with a single finished hypothesis, for the C4 witness. -/
def maskWitnessState : SearchState := ⟨[0], [1], [true], [0]⟩

/-- Claim C4 (amended), witness: at beam width `1`, vocabulary size `1`,
padding token `0`, on a finished single-row state, the selected slot's
parent is finished and the emitted token is the padding token. -/
theorem finished_parent_emits_pad_or_masked_witness :
    0 < 1 ∧ 0 < 1 ∧
    maskWitnessState.finished.getD
        ((bsStep 1 1 0 0 (fun _ => 1) (fun _ _ => 0)
          maskWitnessState).2.parent_ids.getD 0 0) false = true ∧
    ((bsStep 1 1 0 0 (fun _ => 1) (fun _ _ => 0)
        maskWitnessState).2.token_ids.getD 0 0 = 0 ∨
     (bsStep 1 1 0 0 (fun _ => 1) (fun _ _ => 0)
        maskWitnessState).1.logprob_sum.getD 0 0 =
       maskWitnessState.logprob_sum.getD
         ((bsStep 1 1 0 0 (fun _ => 1) (fun _ _ => 0)
           maskWitnessState).2.parent_ids.getD 0 0) 0 + floatMin) := by
  have hfin : maskWitnessState.finished.getD
      ((bsStep 1 1 0 0 (fun _ => 1) (fun _ _ => 0)
        maskWitnessState).2.parent_ids.getD 0 0) false = true := by
    norm_num [bsStep, stepTopK, topK, TopkRel, topkLe, maskWitnessState,
      List.insertionSort, List.orderedInsert, List.range_succ]
  exact ⟨Nat.one_pos, Nat.one_pos, hfin,
    finished_parent_emits_pad_or_masked 1 1 0 0 (fun _ => 1) (fun _ _ => 0)
      maskWitnessState 0 Nat.one_pos Nat.one_pos hfin⟩

end NeuralMonkey
